import Mathlib

/-!
Verification of the FoundryVTT-Quick-Import grid-detection core.

The repository contains two near-duplicate implementations of the same
signal-processing pipeline:

* a factored one: `GridDetectionService` (src/scripts/lib/grid-detection-service.js)
  built on the signal-processing utilities module (src/unnamed/part_001), and
* an embedded one inside the drop handler (src/scripts/lib/drop-handler.js,
  `detectGridFromImage` with helpers `sobelMagnitude`, `highPass1D`,
  `autocorr1D`, `pickPeriodFromAutocorr`, `estimateOffsetFromProjection`).

JavaScript numbers are modelled as rationals (ℚ), typed arrays as `List ℚ` or
index functions `ℕ → ℚ`, and `null`/`NaN` results as `Option`.  `Math.hypot`
(a floating-point square root, irrational in general) is modelled as an
abstract parameter `hyp : ℚ → ℚ → ℚ`; every theorem below holds for an
arbitrary such function (with the explicit hypothesis `hyp 0 0 = 0`, true of
`Math.hypot`, where needed).  JavaScript `Array.prototype.sort` is stable, and
the output of a stable sort is uniquely determined by the comparator, so it is
modelled by the stable `List.insertionSort`.  The image decoding and canvas
scaling steps are browser environment calls performed identically by both
implementations; the pipeline is modelled from the pixel data of the scaled canvas
onwards.
-/

namespace QuickImport

/-- An autocorrelation entry `{lag, val}` (part_001 lines 11-15). -/
structure Entry where
  lag : ℕ
  val : ℚ
deriving DecidableEq, Repr

/-- A period candidate `{value, score}` (part_001 lines 17-21). -/
structure Candidate where
  value : ℕ
  score : ℚ
deriving DecidableEq, Repr

/-- The detection result `{gridSize, xOffset, yOffset}`.  Offsets are
`Option ℚ` because the manual-point branch computes `minX % gridSize`, which
is `NaN` (modelled `none`) when the rounded grid size is `0`. -/
structure GridResult where
  gridSize : ℚ
  xOffset : Option ℚ
  yOffset : Option ℚ
deriving DecidableEq, Repr

/-- Outcome of `detectGridFromImage`: a returned result or a thrown error. -/
inductive DetectOutcome where
  | ok : GridResult → DetectOutcome
  | err : String → DetectOutcome
deriving DecidableEq, Repr

/-- The message of the error thrown when detection fails
(grid-detection-service.js line 87, drop-handler.js line 569). -/
def errMsg : String := "Grid detection failed; insufficient periodic signal."

/-- JavaScript truncation toward zero (the `| 0` and `%` semantics). -/
def jsTrunc (q : ℚ) : ℤ := if q < 0 then ⌈q⌉ else ⌊q⌋

/-- JavaScript `Math.round`: round half toward positive infinity. -/
def jsRound (q : ℚ) : ℤ := ⌊q + 1 / 2⌋

/-- JavaScript `%` on finite operands: `a - b * trunc (a / b)`; `a % 0` is
`NaN`, modelled as `none`. -/
def jsMod (a b : ℚ) : Option ℚ := if b = 0 then none else some (a - b * jsTrunc (a / b))

/-- Source `clampValue` (part_001 lines 285-287):
`value < min ? min : value > max ? max : value`. -/
def clampValue (v mn mx : ℤ) : ℤ := if v < mn then mn else if mx < v then mx else v

/-- Source `computeAutocorrelation` (part_001 lines 38-72): mean, a
variance-like denominator guarded against zero by `|| 1`, and one normalized
autocovariance entry per lag in `[minLag, maxLag]`. -/
def computeAutocorrelation (s : List ℚ) (minLag maxLag : ℕ) : List Entry :=
  let n := s.length
  let mean := s.sum / (n : ℚ)
  let den0 := (s.map fun v => (v - mean) * (v - mean)).sum
  let denominator := if den0 = 0 then 1 else den0
  (List.range (maxLag + 1 - minLag)).map fun k =>
    let lag := minLag + k
    let numerator :=
      ((List.range (n - lag)).map fun i => (s.getD i 0 - mean) * (s.getD (i + lag) 0 - mean)).sum
    ⟨lag, numerator / denominator⟩

/-- The sliding-window loop of `applyHighPassFilter` (part_001 lines 102-122)
and of `highPass1D` (drop-handler.js lines 614-624), one recursion step per
loop iteration `i`, carrying the running sum.  The `(spanEnd - spanStart + 1)
|| 1` guard of the source is automatic here because the span count is a
natural-number successor. -/
def hpLoop (s : List ℚ) (n halfW : ℕ) : ℕ → ℕ → ℚ → List ℚ
  | 0, _, _ => []
  | fuel + 1, i, acc =>
    let acc1 := if i + halfW < n then acc + s.getD (i + halfW) 0 else acc
    let acc2 := if halfW + 1 ≤ i then acc1 - s.getD (i - halfW - 1) 0 else acc1
    let spanEnd := min (n - 1) (i + halfW)
    let span := spanEnd - (i - halfW) + 1
    (s.getD i 0 - acc2 / (span : ℚ)) :: hpLoop s n halfW fuel (i + 1) acc2

/-- Body of the high-pass filter for a given effective window `w`: running sum
initialized with the first `min length w` samples (part_001 lines 96-99), the
sliding-window loop, then the asymmetric attenuation of negative residuals by
`0.2` (part_001 lines 125-129). -/
def highPassCore (s : List ℚ) (w : ℕ) : List ℚ :=
  let n := s.length
  let halfWindow := w / 2
  let initial := (s.take (min n w)).sum
  (hpLoop s n halfWindow n 0 initial).map fun v => if v < 0 then v * (1 / 5) else v

/-- Source `applyHighPassFilter` (part_001 lines 87-132): effective window
`max(3, windowSize | 0)`. -/
def applyHighPassFilter (s : List ℚ) (windowSize : ℤ) : List ℚ :=
  highPassCore s (max 3 windowSize).toNat

/-- Source `normalizeSignal` (part_001 lines 145-164): min-max rescale with
the `(max - min) || 1` zero-range guard.  The JS min/max loops start from
`±Infinity`; over a nonempty list they compute the list minimum/maximum, and
over an empty list the output is empty regardless. -/
def normalizeSignal : List ℚ → List ℚ
  | [] => []
  | x :: xs =>
    let maxValue := (x :: xs).foldl max x
    let minValue := (x :: xs).foldl min x
    let range := if maxValue - minValue = 0 then 1 else maxValue - minValue
    (x :: xs).map fun v => (v - minValue) / range

/-- Default entry used to model JS array indexing in the peak scan (the scan
only reads indices `i - 1`, `i`, `i + 1` for `1 ≤ i ≤ length - 2`, all in
bounds). -/
def dEntry : Entry := ⟨0, 0⟩

/-- The local-maximum scan shared verbatim by `findBestPeriodFromAutocorrelation`
(part_001 lines 179-187) and `pickPeriodFromAutocorr` (drop-handler.js lines
666-672): interior entries strictly greater than the left neighbor and
greater-or-equal to the right neighbor, in index order. -/
def peaksOf (ac : List Entry) : List Entry :=
  (List.range ac.length).filterMap fun i =>
    if 1 ≤ i ∧ i + 1 < ac.length ∧
        (ac.getD (i - 1) dEntry).val < (ac.getD i dEntry).val ∧
        (ac.getD (i + 1) dEntry).val ≤ (ac.getD i dEntry).val then
      some (ac.getD i dEntry)
    else none

/-- The comparator `(a, b) => b.val - a.val`: sort descending by value.
JS sort is stable, so the stable `insertionSort` models it. -/
def sortValDesc (l : List Entry) : List Entry :=
  l.insertionSort fun a b => b.val ≤ a.val

/-- The comparator `(a, b) => a.lag - b.lag`: sort ascending by lag. -/
def sortLagAsc (l : List Entry) : List Entry :=
  l.insertionSort fun a b => a.lag ≤ b.lag

/-- Source `findBestPeriodFromAutocorrelation` (part_001 lines 173-204):
empty-input check, peak scan, the empty-peaks check, then sort descending by
value, take the top 5, sort those ascending by lag and return the first.
The final `match` arm for `[]` is unreachable (the peaks list is nonempty
there), mirroring the unconditional source-level `topPeaks[0]` access. -/
def findBestPeriodFromAutocorrelation (ac : List Entry) : Option Candidate :=
  if ac.isEmpty then none
  else
    let peaks := peaksOf ac
    if peaks.isEmpty then none
    else
      match sortLagAsc ((sortValDesc peaks).take 5) with
      | [] => none
      | best :: _ => some ⟨best.lag, best.val⟩

/-- Source `combinePeriodCandidates` (part_001 lines 214-229). -/
def combinePeriodCandidates : Option Candidate → Option Candidate → Option ℚ
  | some x, some y =>
    if |(x.value : ℚ) - (y.value : ℚ)| ≤ 2 then some (((x.value : ℚ) + (y.value : ℚ)) / 2)
    else if y.score ≤ x.score then some (x.value : ℚ) else some (y.value : ℚ)
  | some x, none => some (x.value : ℚ)
  | none, some y => some (y.value : ℚ)
  | none, none => none

/-- The normalizer of `estimateGridOffset` (part_001 lines 249-253):
`maxValue ? 1 / maxValue : 1` over the maximum of the signal. -/
def normalizerOf : List ℚ → ℚ
  | [] => 1
  | x :: xs =>
    let maxValue := (x :: xs).foldl max x
    if maxValue = 0 then 1 else 1 / maxValue

/-- The score `estimateGridOffset` computes for one candidate offset
(part_001 lines 256-266): the mean of `signal[i] * normalizer` over the
positions `offset, offset + period, …` below the signal length, and
`-Infinity` (modelled `⊥`) when there are no such positions. -/
def offsetScore (s : List ℚ) (P off : ℕ) : WithBot ℚ :=
  let positions := (List.range s.length).filter fun i => decide (off ≤ i ∧ (i - off) % P = 0)
  if positions.isEmpty then ⊥
  else ((((positions.map fun i => s.getD i 0 * normalizerOf s).sum) / (positions.length : ℚ) : ℚ) : WithBot ℚ)

/-- Source `estimateGridOffset` (part_001 lines 239-275): `0` for a falsy or
`< 2` period, otherwise the first offset in `0 .. period - 1` whose score
strictly exceeds all earlier ones (`score > bestScore` update, `bestScore`
starting at `-Infinity`). -/
def estimateGridOffset (s : List ℚ) (period : ℤ) : ℕ :=
  if period < 2 then 0
  else
    ((List.range period.toNat).foldl
      (fun st off =>
        let score := offsetScore s period.toNat off
        if st.2 < score then (off, score) else st)
      ((0, ⊥) : ℕ × WithBot ℚ)).1

/-- Source `computeSobelMagnitude` (grid-detection-service.js lines 167-192):
3×3 Sobel kernels over the grayscale image with edge-replicating (clamped)
sampling, written as the explicit nine-term kernel sums; the magnitude
`Math.hypot(gx, gy)` is the abstract `hyp`. -/
def computeSobelMagnitude (hyp : ℚ → ℚ → ℚ) (gray : ℕ → ℚ) (w h : ℕ) : ℕ → ℚ :=
  fun idx =>
    let x : ℤ := (idx % w : ℕ)
    let y : ℤ := (idx / w : ℕ)
    let sample : ℤ → ℤ → ℚ := fun j i =>
      gray ((clampValue (y + j) 0 ((h : ℤ) - 1)).toNat * w + (clampValue (x + i) 0 ((w : ℤ) - 1)).toNat)
    let gx := sample (-1) (-1) * (-1) + sample (-1) 0 * 0 + sample (-1) 1 * 1
            + sample 0 (-1) * (-2) + sample 0 0 * 0 + sample 0 1 * 2
            + sample 1 (-1) * (-1) + sample 1 0 * 0 + sample 1 1 * 1
    let gy := sample (-1) (-1) * (-1) + sample (-1) 0 * (-2) + sample (-1) 1 * (-1)
            + sample 0 (-1) * 0 + sample 0 0 * 0 + sample 0 1 * 0
            + sample 1 (-1) * 1 + sample 1 0 * 2 + sample 1 1 * 1
    hyp gx gy

/-- Source `GridDetectionService.processProjection` (grid-detection-service.js
lines 226-230): high-pass with window `max(5, floor(dimension / 50))`, then
min-max normalization. -/
def processProjection (projection : List ℚ) (dimension : ℕ) : List ℚ :=
  let windowSize := max 5 (dimension / 50)
  normalizeSignal (applyHighPassFilter projection ((windowSize : ℕ) : ℤ))

/-- Source `GridDetectionService.detectPeriodFromProjections`
(grid-detection-service.js lines 241-254). -/
def detectPeriodFromProjections (signalX signalY : List ℚ) (w h : ℕ) : Option ℚ :=
  let minLagX := max 8 (w / 200)
  let minLagY := max 8 (h / 200)
  let maxLagX := min (w / 2) 1024
  let maxLagY := min (h / 2) 1024
  combinePeriodCandidates
    (findBestPeriodFromAutocorrelation (computeAutocorrelation signalX minLagX maxLagX))
    (findBestPeriodFromAutocorrelation (computeAutocorrelation signalY minLagY maxLagY))

/-- Source `GridDetectionService.buildDetectionResult` (grid-detection-service.js
lines 265-275). -/
def buildDetectionResult (period : ℚ) (signalX signalY : List ℚ) (scale : ℚ) : GridResult :=
  let offsetX := estimateGridOffset signalX (jsRound period)
  let offsetY := estimateGridOffset signalY (jsRound period)
  let inverseScale := 1 / scale
  { gridSize := period * inverseScale
    xOffset := some ((offsetX : ℚ) * inverseScale)
    yOffset := some ((offsetY : ℚ) * inverseScale) }

/-- Minimum of a nonempty list, as computed by `Math.min(...)` starting from
`Infinity`; the `[]` case is unreachable at the call sites (points lists have
length at least 2 there). -/
def listMinQ : List ℚ → ℚ
  | [] => 0
  | x :: xs => xs.foldl min x

/-- Maximum of a nonempty list, as computed by `Math.max(...)`. -/
def listMaxQ : List ℚ → ℚ
  | [] => 0
  | x :: xs => xs.foldl max x

/-- The rounded tile size of the manual-point fallback
(grid-detection-service.js lines 290-292): mean of the average X-spacing and
average Y-spacing, rounded. -/
def manualTileSize (pts : List (ℚ × ℚ)) : ℤ :=
  let xs := pts.map Prod.fst
  let ys := pts.map Prod.snd
  let avgSpacingX := (listMaxQ xs - listMinQ xs) / ((pts.length : ℚ) - 1)
  let avgSpacingY := (listMaxQ ys - listMinQ ys) / ((pts.length : ℚ) - 1)
  jsRound ((avgSpacingX + avgSpacingY) / 2)

/-- Source `GridDetectionService.detectFromManualPoints` (grid-detection-service.js
lines 283-299): `gridSize` is the rounded tile size, offsets are
`min % gridSize` per axis (`NaN`, i.e. `none`, when the tile size is `0`). -/
def detectFromManualPoints (pts : List (ℚ × ℚ)) : GridResult :=
  let gridSize := manualTileSize pts
  { gridSize := (gridSize : ℚ)
    xOffset := jsMod (listMinQ (pts.map Prod.fst)) (gridSize : ℚ)
    yOffset := jsMod (listMinQ (pts.map Prod.snd)) (gridSize : ℚ) }

/-- The shared tail of both orchestrations once automatic detection has
failed (grid-detection-service.js lines 83-87, drop-handler.js lines 548-569):
use the manual points when at least two are given, else throw. -/
def manualFallback (mp : Option (List (ℚ × ℚ))) : DetectOutcome :=
  match mp with
  | some pts => if 2 ≤ pts.length then .ok (detectFromManualPoints pts) else .err errMsg
  | none => .err errMsg

/-- Source `GridDetectionService.detectGridFromImage` (grid-detection-service.js
lines 66-88), from the pixel data of the scaled canvas onwards: grayscale
conversion (`extractGrayscaleData`, lines 142-157), Sobel magnitude, edge
projections (`computeEdgeProjections`, lines 202-217), per-axis conditioning,
period detection, then the `period && isFinite && period >= MIN_VALID_PERIOD`
guard (`MIN_VALID_PERIOD = 6`) and the manual fallback. -/
def detectGridFromImageService (hyp : ℚ → ℚ → ℚ) (w h : ℕ) (pix : ℕ → ℚ)
    (scale : ℚ) (mp : Option (List (ℚ × ℚ))) : DetectOutcome :=
  let gray : ℕ → ℚ := fun k =>
    299 / 1000 * pix (4 * k) + 587 / 1000 * pix (4 * k + 1) + 114 / 1000 * pix (4 * k + 2)
  let mag := computeSobelMagnitude hyp gray w h
  let projectionX := (List.range w).map fun x => ((List.range h).map fun y => mag (y * w + x)).sum
  let projectionY := (List.range h).map fun y => ((List.range w).map fun x => mag (y * w + x)).sum
  let filteredX := processProjection projectionX w
  let filteredY := processProjection projectionY h
  match detectPeriodFromProjections filteredX filteredY w h with
  | some p =>
    if p ≠ 0 ∧ 6 ≤ p then .ok (buildDetectionResult p filteredX filteredY scale)
    else manualFallback mp
  | none => manualFallback mp

/-! ## The embedded drop-handler implementation

The drop handler (src/scripts/lib/drop-handler.js) carries its own copy of the
pipeline.  Functions whose bodies are semantically identical to the factored
ones are transcribed again below (the reviewer can diff them against
drop-handler.js); the two genuine textual differences are in
`pickPeriodFromAutocorr` (it sorts the peaks array in place before the
emptiness check) and `estimateOffsetFromProjection` (it materializes a
normalized copy of the signal with `map` instead of multiplying inline). -/

/-- Source `highPass1D` (drop-handler.js lines 604-630); body identical to
`applyHighPassFilter`. -/
def highPass1D (s : List ℚ) (windowSize : ℤ) : List ℚ :=
  highPassCore s (max 3 windowSize).toNat

/-- Source `autocorr1D` (drop-handler.js lines 632-660); the mean is computed
with `reduce((a, b) => a + b, 0) / length`, the same sum as the factored
loop. -/
def autocorr1D (s : List ℚ) (minimumLag maximumLag : ℕ) : List Entry :=
  let n := s.length
  let mean := s.sum / (n : ℚ)
  let den0 := (s.map fun v => (v - mean) * (v - mean)).sum
  let denominator := if den0 = 0 then 1 else den0
  (List.range (maximumLag + 1 - minimumLag)).map fun k =>
    let lag := minimumLag + k
    let numerator :=
      ((List.range (n - lag)).map fun i => (s.getD i 0 - mean) * (s.getD (i + lag) 0 - mean)).sum
    ⟨lag, numerator / denominator⟩

/-- The inline `normalize` closure of the drop handler (drop-handler.js lines
498-510); body identical to `normalizeSignal`. -/
def dropNormalize : List ℚ → List ℚ
  | [] => []
  | x :: xs =>
    let maxValue := (x :: xs).foldl max x
    let minValue := (x :: xs).foldl min x
    let range := if maxValue - minValue = 0 then 1 else maxValue - minValue
    (x :: xs).map fun v => (v - minValue) / range

/-- Source `sobelMagnitude` (drop-handler.js lines 572-602); body identical to
`computeSobelMagnitude` (the local `clamp` closure is `clampValue`). -/
def sobelMagnitude (hyp : ℚ → ℚ → ℚ) (gray : ℕ → ℚ) (w h : ℕ) : ℕ → ℚ :=
  fun idx =>
    let x : ℤ := (idx % w : ℕ)
    let y : ℤ := (idx / w : ℕ)
    let sample : ℤ → ℤ → ℚ := fun j i =>
      gray ((clampValue (y + j) 0 ((h : ℤ) - 1)).toNat * w + (clampValue (x + i) 0 ((w : ℤ) - 1)).toNat)
    let gx := sample (-1) (-1) * (-1) + sample (-1) 0 * 0 + sample (-1) 1 * 1
            + sample 0 (-1) * (-2) + sample 0 0 * 0 + sample 0 1 * 2
            + sample 1 (-1) * (-1) + sample 1 0 * 0 + sample 1 1 * 1
    let gy := sample (-1) (-1) * (-1) + sample (-1) 0 * (-2) + sample (-1) 1 * (-1)
            + sample 0 (-1) * 0 + sample 0 0 * 0 + sample 0 1 * 0
            + sample 1 (-1) * 1 + sample 1 0 * 2 + sample 1 1 * 1
    hyp gx gy

/-- Source `pickPeriodFromAutocorr` (drop-handler.js lines 662-689): the peak
array is sorted in place *before* the `!peaks.length` check, so the emptiness
test is performed on the sorted array; then `slice(0, 5)`, sort by lag, take
the first. -/
def pickPeriodFromAutocorr (ac : List Entry) : Option Candidate :=
  if ac.isEmpty then none
  else
    let sorted := sortValDesc (peaksOf ac)
    if sorted.isEmpty then none
    else
      match sortLagAsc (sorted.take 5) with
      | [] => none
      | best :: _ => some ⟨best.lag, best.val⟩

/-- The score of one candidate shift in `estimateOffsetFromProjection`
(drop-handler.js lines 709-717), summing over the materialized
`normalized = signal.map(v => v * inv)` array. -/
def offsetScoreDrop (s : List ℚ) (P off : ℕ) : WithBot ℚ :=
  let normalized := s.map fun v => v * normalizerOf s
  let positions := (List.range s.length).filter fun i => decide (off ≤ i ∧ (i - off) % P = 0)
  if positions.isEmpty then ⊥
  else ((((positions.map fun i => normalized.getD i 0).sum) / (positions.length : ℚ) : ℚ) : WithBot ℚ)

/-- Source `estimateOffsetFromProjection` (drop-handler.js lines 691-726). -/
def estimateOffsetFromProjection (s : List ℚ) (period : ℤ) : ℕ :=
  if period < 2 then 0
  else
    ((List.range period.toNat).foldl
      (fun st off =>
        let score := offsetScoreDrop s period.toNat off
        if st.2 < score then (off, score) else st)
      ((0, ⊥) : ℕ × WithBot ℚ)).1

/-- Source `detectGridFromImage` of the drop handler (drop-handler.js lines
449-570), from the pixel data of the scaled canvas onwards: the inline grayscale
loop (lines 472-478), `sobelMagnitude`, the inline projection loop (lines
482-493), inline conditioning with window `max(5, floor(dimension / 50))`
(lines 495-513), per-axis autocorrelation and period pick (lines 515-523),
the inline combination if-chain (lines 525-534), the `period && isFinite &&
period >= 6` guard (line 536), and the inline manual fallback (lines
548-569). -/
def detectGridFromImageDrop (hyp : ℚ → ℚ → ℚ) (w h : ℕ) (pix : ℕ → ℚ)
    (scale : ℚ) (mp : Option (List (ℚ × ℚ))) : DetectOutcome :=
  let gray : ℕ → ℚ := fun k =>
    299 / 1000 * pix (4 * k) + 587 / 1000 * pix (4 * k + 1) + 114 / 1000 * pix (4 * k + 2)
  let mag := sobelMagnitude hyp gray w h
  let projectionX := (List.range w).map fun x => ((List.range h).map fun y => mag (y * w + x)).sum
  let projectionY := (List.range h).map fun y => ((List.range w).map fun x => mag (y * w + x)).sum
  let highPassX := highPass1D projectionX ((max 5 (w / 50) : ℕ) : ℤ)
  let highPassY := highPass1D projectionY ((max 5 (h / 50) : ℕ) : ℤ)
  let normalizedX := dropNormalize highPassX
  let normalizedY := dropNormalize highPassY
  let autocorrelationX := autocorr1D normalizedX (max 8 (w / 200)) (min (w / 2) 1024)
  let autocorrelationY := autocorr1D normalizedY (max 8 (h / 200)) (min (h / 2) 1024)
  let periodCandidateX := pickPeriodFromAutocorr autocorrelationX
  let periodCandidateY := pickPeriodFromAutocorr autocorrelationY
  let period : Option ℚ :=
    match periodCandidateX, periodCandidateY with
    | some x, some y =>
      if |(x.value : ℚ) - (y.value : ℚ)| ≤ 2 then some (((x.value : ℚ) + (y.value : ℚ)) / 2)
      else if y.score ≤ x.score then some (x.value : ℚ) else some (y.value : ℚ)
    | some x, none => some (x.value : ℚ)
    | none, some y => some (y.value : ℚ)
    | none, none => none
  match period with
  | some p =>
    if p ≠ 0 ∧ 6 ≤ p then
      let offsetX := estimateOffsetFromProjection normalizedX (jsRound p)
      let offsetY := estimateOffsetFromProjection normalizedY (jsRound p)
      let inverseScale := 1 / scale
      .ok { gridSize := p * inverseScale
            xOffset := some ((offsetX : ℚ) * inverseScale)
            yOffset := some ((offsetY : ℚ) * inverseScale) }
    else manualFallback mp
  | none => manualFallback mp

/-! ## Definition following the words of claim C1 -/

/-- Modelled from the spec: the high-pass filter as claim C1 states it — at
every index `i` the output is `signal[i]` minus the arithmetic mean of the
signal over the centered window `[max(0, i - h), min(length - 1, i + h)]`
with `h = floor(max(3, floor(w)) / 2)`, the difference then attenuated by
`0.2` when negative.  For comparison with `applyHighPassFilter`. -/
def highPassClaimed (s : List ℚ) (windowSize : ℤ) : List ℚ :=
  let n := s.length
  let W := (max 3 windowSize).toNat
  let halfW := W / 2
  (List.range n).map fun i =>
    let a := i - halfW
    let b := min (n - 1) (i + halfW)
    let mean := (((List.range (b + 1 - a)).map fun j => s.getD (a + j) 0).sum) / ((b + 1 - a : ℕ) : ℚ)
    let v := s.getD i 0 - mean
    if v < 0 then v * (1 / 5) else v

/-! ## Auxiliary definitions used by the theorems -/

/-- The argmax loop of `estimateGridOffset` and `estimateOffsetFromProjection`
abstracted over the per-offset score function: first offset whose score
strictly exceeds all earlier ones, starting from `(0, -Infinity)`. -/
def argmaxLoop (f : ℕ → WithBot ℚ) (P : ℕ) : ℕ × WithBot ℚ :=
  (List.range P).foldl
    (fun st off =>
      let score := f off
      if st.2 < score then (off, score) else st)
    ((0, ⊥) : ℕ × WithBot ℚ)

/-- The synthetic signal of the spec for the offset estimator: spikes exactly
at positions 3, 13, 23 in a signal of length 30. -/
def spikeSignal : List ℚ := (List.range 30).map fun i => if i % 10 = 3 then 1 else 0

/-- An autocorrelation curve with two equal-valued peaks at lags 40 and 80 and
no stronger peaks (the tie-break test case of the spec). -/
def tieCurve : List Entry := [⟨10, 0⟩, ⟨40, 5⟩, ⟨41, 0⟩, ⟨80, 5⟩, ⟨81, 0⟩]

/-- A periodic test signal of length 22 with spikes every 10 samples, used to
exercise the automatic period-detection path on concrete data. -/
def periodicSignal : List ℚ := (List.range 22).map fun i => if i % 10 = 0 then 1 else 0

instance : IsTotal Entry fun a b => b.val ≤ a.val := ⟨fun a b => le_total b.val a.val⟩

instance : IsTrans Entry fun a b => b.val ≤ a.val := ⟨fun _ _ _ hab hbc => le_trans hbc hab⟩

instance : IsTotal Entry fun a b => a.lag ≤ b.lag := ⟨fun a b => le_total a.lag b.lag⟩

instance : IsTrans Entry fun a b => a.lag ≤ b.lag := ⟨fun _ _ _ hab hbc => le_trans hab hbc⟩

/-! ## C1: the high-pass filter versus the centered moving average -/

unseal Rat.add Rat.sub Rat.mul Rat.inv in
/-- C1: evaluation at the failing input `signal = [0, 1, 0, 0, 0]`,
`windowSize = 3`.  `applyHighPassFilter` (and the identical `highPass1D`)
returns `-1/5` at index 0, whereas subtracting the centered-window mean as
the claim states (`highPassClaimed`) gives `-1/10` there: the running sum is
initialized with the whole first window (part_001 lines 96-99) and the first
loop iterations then re-add `signal[i + halfWindow]`, double-counting
samples, so the value subtracted is not the centered-window mean. -/
theorem c1_highPassFilter_eval :
    applyHighPassFilter [0, 1, 0, 0, 0] 3 = [-1/5, 1/3, -2/15, -1/15, -1/10]
    ∧ highPassClaimed [0, 1, 0, 0, 0] 3 = [-1/10, 2/3, -1/15, 0, 0]
    ∧ applyHighPassFilter [0, 1, 0, 0, 0] 3 ≠ highPassClaimed [0, 1, 0, 0, 0] 3 :=
  ⟨by decide, by decide, by decide⟩

/-! ## C7: the conditioning window -/

set_option maxRecDepth 40000 in
unseal Rat.add Rat.sub Rat.mul Rat.inv in
/-- C7 counterexample: the claim says the pipeline conditions each projection
with window `max(3, floor(d / 50))`; at dimension 150 that is 3, but
`processProjection` passes `max(5, floor(150 / 50)) = 5`, and on the
projection `[0, 1, 0, 0, 0]` the two conditionings differ. -/
theorem c7_window_counterexample :
    processProjection [0, 1, 0, 0, 0] 150
      ≠ normalizeSignal (applyHighPassFilter [0, 1, 0, 0, 0] ((max 3 (150 / 50 : ℕ) : ℕ) : ℤ)) := by
  decide

/-- C7 amended: for every axis projection of dimension `d`, the conditioning
applies the high-pass filter with effective averaging window
`max(5, floor(d / 50))` (the inner `max(3, ·)` clamp of the filter is
absorbed by the 5). -/
theorem c7_window_amended (projection : List ℚ) (dimension : ℕ) :
    processProjection projection dimension
      = normalizeSignal (highPassCore projection (max 5 (dimension / 50))) := by
  have hmax : (max 3 (((max 5 (dimension / 50) : ℕ) : ℤ))).toNat = max 5 (dimension / 50) := by
    omega
  simp only [processProjection, applyHighPassFilter, hmax]

/-! ## C5 and C10: the axis combiner -/

unseal Rat.add Rat.sub Rat.mul Rat.inv in
/-- C5: `combinePeriodCandidates` averages the two values when both candidates
are present and their values differ by at most 2; when they differ by more
than 2 it returns the value of the strictly more confident candidate; with one
candidate it returns that value; with none it returns `null`; and on the
concrete spec instances it returns 51 and 80 respectively. -/
theorem c5_combinePeriodCandidates (x y : Candidate) :
    (|(x.value : ℚ) - (y.value : ℚ)| ≤ 2 →
      combinePeriodCandidates (some x) (some y) = some (((x.value : ℚ) + (y.value : ℚ)) / 2))
    ∧ (2 < |(x.value : ℚ) - (y.value : ℚ)| →
        (y.score < x.score → combinePeriodCandidates (some x) (some y) = some (x.value : ℚ))
        ∧ (x.score < y.score → combinePeriodCandidates (some x) (some y) = some (y.value : ℚ)))
    ∧ combinePeriodCandidates (some x) none = some (x.value : ℚ)
    ∧ combinePeriodCandidates none (some y) = some (y.value : ℚ)
    ∧ combinePeriodCandidates (none : Option Candidate) none = none
    ∧ combinePeriodCandidates (some ⟨50, 9/10⟩) (some ⟨52, 7/10⟩) = some 51
    ∧ combinePeriodCandidates (some ⟨50, 9/10⟩) (some ⟨80, 19/20⟩) = some 80 := by
  refine ⟨fun hle => by simp [combinePeriodCandidates, hle],
    fun hgt => ⟨fun hxy => ?_, fun hyx => ?_⟩, rfl, rfl, rfl, by decide, by decide⟩
  · simp [combinePeriodCandidates, not_le.mpr hgt, le_of_lt hxy]
  · simp [combinePeriodCandidates, not_le.mpr hgt, not_le.mpr hyx]

/-- C5 witness: the averaged branch at the concrete candidates (50, 0.9) and
(52, 0.7). -/
theorem c5_witness :
    combinePeriodCandidates (some ⟨50, 9/10⟩) (some ⟨52, 7/10⟩)
      = some ((((50 : ℕ) : ℚ) + ((52 : ℕ) : ℚ)) / 2) :=
  (c5_combinePeriodCandidates ⟨50, 9/10⟩ ⟨52, 7/10⟩).1 (by norm_num)

/-- C10: when both candidates are present, the values differ by more than 2
and the scores are exactly equal, the X-axis value is returned (the source
comparison is `periodX.score >= periodY.score`). -/
theorem c10_combine_score_tie (x y : Candidate)
    (hv : 2 < |(x.value : ℚ) - (y.value : ℚ)|) (hs : x.score = y.score) :
    combinePeriodCandidates (some x) (some y) = some (x.value : ℚ) := by
  simp [combinePeriodCandidates, not_le.mpr hv, le_of_eq hs.symm]

/-- C10 witness: equal scores 0.9 at values 50 and 80 yield 50. -/
theorem c10_witness :
    combinePeriodCandidates (some ⟨50, 9/10⟩) (some ⟨80, 9/10⟩) = some ((50 : ℕ) : ℚ) :=
  c10_combine_score_tie ⟨50, 9/10⟩ ⟨80, 9/10⟩ (by norm_num) rfl

/-! ## C3: successful results -/

set_option maxRecDepth 40000 in
unseal Rat.add Rat.sub Rat.mul Rat.inv in
/-- C3 counterexample: with two coincident manual points (and a featureless
1×1 image so that the automatic path fails) the pipeline returns — it does
not throw — a result with `gridSize = 0` (not `> 0`) and `NaN` offsets
(`minX % 0`), refuting the claim as stated. -/
theorem c3_counterexample :
    detectGridFromImageService (fun _ _ => 0) 1 1 (fun _ => 0) 1 (some [(5, 5), (5, 5)])
        = .ok ⟨0, none, none⟩
    ∧ ¬(0 < (GridResult.mk 0 none none).gridSize
          ∧ (GridResult.mk 0 none none).xOffset.isSome
          ∧ (GridResult.mk 0 none none).yOffset.isSome) :=
  ⟨by decide, by decide⟩

/-! ## C4: the period picker -/

lemma mem_peaksOf_iff (ac : List Entry) (e : Entry) :
    e ∈ peaksOf ac ↔ ∃ i, 1 ≤ i ∧ i + 1 < ac.length
      ∧ (ac.getD (i - 1) dEntry).val < (ac.getD i dEntry).val
      ∧ (ac.getD (i + 1) dEntry).val ≤ (ac.getD i dEntry).val
      ∧ ac.getD i dEntry = e := by
  simp only [peaksOf, List.mem_filterMap, List.mem_range]
  constructor
  · rintro ⟨i, _, hsome⟩
    split at hsome
    · next hcond =>
        exact ⟨i, hcond.1, hcond.2.1, hcond.2.2.1, hcond.2.2.2, Option.some.inj hsome⟩
    · exact absurd hsome (by simp)
  · rintro ⟨i, h1, h2, h3, h4, h5⟩
    exact ⟨i, by omega, by rw [if_pos ⟨h1, h2, h3, h4⟩, h5]⟩

lemma peaksOf_nil : peaksOf [] = [] := rfl

lemma findBest_eq_none_iff (ac : List Entry) :
    findBestPeriodFromAutocorrelation ac = none ↔ peaksOf ac = [] := by
  unfold findBestPeriodFromAutocorrelation
  by_cases hac : ac.isEmpty
  · rw [List.isEmpty_iff.mp hac]
    simp [peaksOf_nil]
  · rw [if_neg hac]
    by_cases hpk : (peaksOf ac).isEmpty
    · simp [hpk, List.isEmpty_iff.mp hpk]
    · have hne : peaksOf ac ≠ [] := fun hnil => hpk (by rw [hnil]; rfl)
      simp only [hpk, Bool.false_eq_true, if_false]
      have hlen : sortLagAsc ((sortValDesc (peaksOf ac)).take 5) ≠ [] := by
        intro hnil
        have hl := congrArg List.length hnil
        rw [sortLagAsc, List.length_insertionSort, List.length_take, sortValDesc,
          List.length_insertionSort, List.length_nil] at hl
        have : (peaksOf ac).length ≠ 0 := fun h0 => hne (List.length_eq_zero.mp h0)
        omega
      cases hmatch : sortLagAsc ((sortValDesc (peaksOf ac)).take 5) with
      | nil => exact absurd hmatch hlen
      | cons b t => simp [hne]

lemma findBest_some_spec (ac : List Entry) (c : Candidate)
    (h : findBestPeriodFromAutocorrelation ac = some c) :
    ∃ top rest, (peaksOf ac).Perm (top ++ rest)
      ∧ top.length = min 5 (peaksOf ac).length
      ∧ (∀ p ∈ top, ∀ q ∈ rest, q.val ≤ p.val)
      ∧ ∃ p ∈ top, c.value = p.lag ∧ c.score = p.val ∧ ∀ q ∈ top, p.lag ≤ q.lag := by
  unfold findBestPeriodFromAutocorrelation at h
  by_cases hac : ac.isEmpty
  · rw [if_pos hac] at h; exact absurd h (by simp)
  · rw [if_neg hac] at h
    by_cases hpk : (peaksOf ac).isEmpty
    · simp only [hpk, if_true] at h; exact absurd h (by simp)
    · simp only [hpk, Bool.false_eq_true, if_false] at h
      refine ⟨(sortValDesc (peaksOf ac)).take 5, (sortValDesc (peaksOf ac)).drop 5, ?_, ?_, ?_, ?_⟩
      · rw [List.take_append_drop]
        exact (List.perm_insertionSort _ _).symm
      · rw [List.length_take, sortValDesc, List.length_insertionSort]
      · have hs : List.Pairwise (fun a b => b.val ≤ a.val) (sortValDesc (peaksOf ac)) :=
          List.sorted_insertionSort _ _
        rw [← List.take_append_drop 5 (sortValDesc (peaksOf ac))] at hs
        exact (List.pairwise_append.mp hs).2.2
      · cases hmatch : sortLagAsc ((sortValDesc (peaksOf ac)).take 5) with
        | nil => rw [hmatch] at h; exact absurd h (by simp)
        | cons b t =>
          rw [hmatch] at h
          have hc : c = ⟨b.lag, b.val⟩ := (Option.some.inj h).symm
          have hbmem : b ∈ (sortValDesc (peaksOf ac)).take 5 := by
            have : b ∈ sortLagAsc ((sortValDesc (peaksOf ac)).take 5) := by
              rw [hmatch]; exact List.mem_cons_self _ _
            exact (List.mem_insertionSort _).mp this
          refine ⟨b, hbmem, by rw [hc], by rw [hc], ?_⟩
          intro q hq
          have hqs : q ∈ sortLagAsc ((sortValDesc (peaksOf ac)).take 5) :=
            (List.mem_insertionSort _).mpr hq
          rw [hmatch] at hqs
          rcases List.mem_cons.mp hqs with hqb | hqt
          · rw [hqb]
          · have hsorted : List.Sorted (fun a b => a.lag ≤ b.lag)
                (sortLagAsc ((sortValDesc (peaksOf ac)).take 5)) :=
              List.sorted_insertionSort _ _
            rw [hmatch] at hsorted
            exact List.rel_of_sorted_cons hsorted q hqt

unseal Rat.add Rat.sub Rat.mul Rat.inv in
/-- C4: the peak list consists exactly of the interior entries strictly above
the left neighbor and at least the right neighbor; `null` is returned exactly
when there is no peak; otherwise the returned candidate carries the lag and
correlation of a peak of minimal lag among the (at most) 5 largest-value
peaks; and on a curve with two equal-valued peaks at lags 40 and 80 it
returns lag 40. -/
theorem c4_period_picker (ac : List Entry) :
    (findBestPeriodFromAutocorrelation ac = none ↔ peaksOf ac = [])
    ∧ (∀ e : Entry, e ∈ peaksOf ac ↔ ∃ i, 1 ≤ i ∧ i + 1 < ac.length
        ∧ (ac.getD (i - 1) dEntry).val < (ac.getD i dEntry).val
        ∧ (ac.getD (i + 1) dEntry).val ≤ (ac.getD i dEntry).val
        ∧ ac.getD i dEntry = e)
    ∧ (∀ c, findBestPeriodFromAutocorrelation ac = some c →
        ∃ top rest, (peaksOf ac).Perm (top ++ rest)
          ∧ top.length = min 5 (peaksOf ac).length
          ∧ (∀ p ∈ top, ∀ q ∈ rest, q.val ≤ p.val)
          ∧ ∃ p ∈ top, c.value = p.lag ∧ c.score = p.val ∧ ∀ q ∈ top, p.lag ≤ q.lag)
    ∧ findBestPeriodFromAutocorrelation tieCurve = some ⟨40, 5⟩ :=
  ⟨findBest_eq_none_iff ac, mem_peaksOf_iff ac, findBest_some_spec ac, by decide⟩

unseal Rat.add Rat.sub Rat.mul Rat.inv in
/-- C4 witness: the characterization applied to the concrete tie curve,
discharging the `some` hypothesis by evaluation. -/
theorem c4_witness :
    ∃ top rest, (peaksOf tieCurve).Perm (top ++ rest)
      ∧ top.length = min 5 (peaksOf tieCurve).length
      ∧ (∀ p ∈ top, ∀ q ∈ rest, q.val ≤ p.val)
      ∧ ∃ p ∈ top, (Candidate.mk 40 5).value = p.lag ∧ (Candidate.mk 40 5).score = p.val
          ∧ ∀ q ∈ top, p.lag ≤ q.lag := by
  have hsome : findBestPeriodFromAutocorrelation tieCurve = some ⟨40, 5⟩ := by decide
  exact (c4_period_picker tieCurve).2.2.1 ⟨40, 5⟩ hsome

/-! ## C9: lower bound on automatically detected periods -/

lemma autocorr_length (s : List ℚ) (minLag maxLag : ℕ) :
    (computeAutocorrelation s minLag maxLag).length = maxLag + 1 - minLag := by
  simp [computeAutocorrelation]

lemma autocorr_getD_lag (s : List ℚ) (minLag maxLag i : ℕ) (hi : i < maxLag + 1 - minLag) :
    ((computeAutocorrelation s minLag maxLag).getD i dEntry).lag = minLag + i := by
  simp [computeAutocorrelation, List.getD_eq_getElem?_getD, List.getElem?_map,
    List.getElem?_range hi]

lemma findBest_value_lower (s : List ℚ) (minLag maxLag : ℕ) (c : Candidate)
    (h : findBestPeriodFromAutocorrelation (computeAutocorrelation s minLag maxLag) = some c) :
    minLag + 1 ≤ c.value := by
  obtain ⟨top, rest, hperm, _, _, p, hp, hv, _, _⟩ := findBest_some_spec _ c h
  have hpk : p ∈ peaksOf (computeAutocorrelation s minLag maxLag) :=
    hperm.mem_iff.mpr (List.mem_append_left _ hp)
  obtain ⟨i, h1, h2, _, _, h5⟩ := (mem_peaksOf_iff _ _).mp hpk
  have hi : i < maxLag + 1 - minLag := by
    rw [autocorr_length] at h2; omega
  have hlag : p.lag = minLag + i := by
    rw [← h5]; exact autocorr_getD_lag s minLag maxLag i hi
  rw [hv, hlag]; omega

/-- C9: whenever `detectPeriodFromProjections` returns a period, that period
is at least 9 (every peak lag strictly exceeds `minLag = max(8, dim / 200)`,
and the combiner preserves the bound), so the `>= MIN_VALID_PERIOD` (6)
rejection also never fires on it. -/
theorem c9_detected_period_lower_bound (sx sy : List ℚ) (w h : ℕ) (p : ℚ)
    (hdet : detectPeriodFromProjections sx sy w h = some p) :
    9 ≤ p ∧ p ≠ 0 ∧ 6 ≤ p := by
  have main : 9 ≤ p := by
    simp only [detectPeriodFromProjections] at hdet
    cases hx : findBestPeriodFromAutocorrelation
        (computeAutocorrelation sx (max 8 (w / 200)) (min (w / 2) 1024)) with
    | none =>
      cases hy : findBestPeriodFromAutocorrelation
          (computeAutocorrelation sy (max 8 (h / 200)) (min (h / 2) 1024)) with
      | none => rw [hx, hy] at hdet; exact absurd hdet (by simp [combinePeriodCandidates])
      | some cy =>
        rw [hx, hy] at hdet
        have h9 : 9 ≤ cy.value := by
          have := findBest_value_lower sy _ _ cy hy
          omega
        have hp : p = (cy.value : ℚ) :=
          (Option.some.inj hdet).symm
        rw [hp]; exact_mod_cast h9
    | some cx =>
      have h9x : 9 ≤ cx.value := by
        have := findBest_value_lower sx _ _ cx hx
        omega
      cases hy : findBestPeriodFromAutocorrelation
          (computeAutocorrelation sy (max 8 (h / 200)) (min (h / 2) 1024)) with
      | none =>
        rw [hx, hy] at hdet
        have hp : p = (cx.value : ℚ) := (Option.some.inj hdet).symm
        rw [hp]; exact_mod_cast h9x
      | some cy =>
        rw [hx, hy] at hdet
        have h9y : 9 ≤ cy.value := by
          have := findBest_value_lower sy _ _ cy hy
          omega
        have h9xq : (9 : ℚ) ≤ (cx.value : ℚ) := by exact_mod_cast h9x
        have h9yq : (9 : ℚ) ≤ (cy.value : ℚ) := by exact_mod_cast h9y
        simp only [combinePeriodCandidates] at hdet
        split_ifs at hdet with h1 h2
        · have hp : p = ((cx.value : ℚ) + (cy.value : ℚ)) / 2 := (Option.some.inj hdet).symm
          rw [hp]; linarith
        · have hp : p = (cx.value : ℚ) := (Option.some.inj hdet).symm
          rw [hp]; exact h9xq
        · have hp : p = (cy.value : ℚ) := (Option.some.inj hdet).symm
          rw [hp]; exact h9yq
  exact ⟨main, by intro h0; rw [h0] at main; norm_num at main, by linarith⟩

set_option maxRecDepth 100000 in
unseal Rat.add Rat.sub Rat.mul Rat.inv in
/-- C9 witness: a concrete 22-sample periodic signal on the X axis (period
10, spikes at 0, 10, 20) with a degenerate Y axis produces the detected
period 10, discharging the hypothesis by evaluation. -/
theorem c9_witness : (9 : ℚ) ≤ 10 ∧ (10 : ℚ) ≠ 0 ∧ (6 : ℚ) ≤ 10 :=
  c9_detected_period_lower_bound periodicSignal [0] 22 1 10 (by decide)

/-! ## C6: the offset estimator -/

lemma argmaxLoop_spec (f : ℕ → WithBot ℚ) (P : ℕ) :
    (argmaxLoop f P).1 < max P 1
    ∧ (∀ o, o < P → f o ≤ (argmaxLoop f P).2)
    ∧ (∀ o, o < (argmaxLoop f P).1 → f o < (argmaxLoop f P).2)
    ∧ ((argmaxLoop f P).2 = f (argmaxLoop f P).1 ∨ argmaxLoop f P = (0, ⊥)) := by
  induction P with
  | zero =>
    have h0 : argmaxLoop f 0 = ((0, ⊥) : ℕ × WithBot ℚ) := rfl
    refine ⟨?_, fun o ho => absurd ho (by omega), fun o ho => ?_, Or.inr h0⟩
    · rw [h0]
      show 0 < max 0 1
      omega
    · rw [h0] at ho
      exact absurd ho (by omega)
  | succ n ih =>
    obtain ⟨ih1, ih2, ih3, ih4⟩ := ih
    have hstep : argmaxLoop f (n + 1)
        = if (argmaxLoop f n).2 < f n then (n, f n) else argmaxLoop f n := by
      unfold argmaxLoop
      rw [List.range_succ, List.foldl_append]
      rfl
    by_cases hlt : (argmaxLoop f n).2 < f n
    · rw [hstep, if_pos hlt]
      refine ⟨?_, ?_, ?_, Or.inl rfl⟩
      · show n < max (n + 1) 1
        omega
      · intro o ho
        rcases Nat.lt_succ_iff_lt_or_eq.mp ho with h | h
        · exact le_of_lt (lt_of_le_of_lt (ih2 o h) hlt)
        · subst h; exact le_refl _
      · intro o ho
        exact lt_of_le_of_lt (ih2 o ho) hlt
    · rw [hstep, if_neg hlt]
      refine ⟨lt_of_lt_of_le ih1 (by omega), ?_, ih3, ih4⟩
      intro o ho
      rcases Nat.lt_succ_iff_lt_or_eq.mp ho with h | h
      · exact ih2 o h
      · subst h; exact not_lt.mp hlt

set_option maxRecDepth 40000 in
unseal Rat.add Rat.sub Rat.mul Rat.inv in
/-- C6: for a falsy or `< 2` period `estimateGridOffset` returns 0; for an
integer period `≥ 2` it returns an offset in `[0, period - 1]` whose score
(the mean of the max-normalized signal over the stride positions) is maximal,
and strictly greater than the score of every smaller offset (the smallest
maximizer); and on the synthetic spike signal with period 10 it returns 3. -/
theorem c6_estimateGridOffset (s : List ℚ) (period : ℤ) :
    ((period < 2 → estimateGridOffset s period = 0)
    ∧ (2 ≤ period →
        estimateGridOffset s period < period.toNat
        ∧ (∀ o < period.toNat,
            offsetScore s period.toNat o
              ≤ offsetScore s period.toNat (estimateGridOffset s period))
        ∧ (∀ o < estimateGridOffset s period,
            offsetScore s period.toNat o
              < offsetScore s period.toNat (estimateGridOffset s period))))
    ∧ estimateGridOffset spikeSignal 10 = 3 := by
  refine ⟨⟨fun hlt => by rw [estimateGridOffset, if_pos hlt], fun h2 => ?_⟩, by decide⟩
  have hn : ¬ period < 2 := not_lt.mpr h2
  have heq : estimateGridOffset s period
      = (argmaxLoop (offsetScore s period.toNat) period.toNat).1 := by
    rw [estimateGridOffset, if_neg hn]
    rfl
  have hP : 1 ≤ period.toNat := by omega
  obtain ⟨h1, hmax, hstrict, hval⟩ := argmaxLoop_spec (offsetScore s period.toNat) period.toNat
  rcases hval with hv | hbot
  · refine ⟨by rw [heq]; omega, ?_, ?_⟩
    · intro o ho
      rw [heq, ← hv]
      exact hmax o ho
    · intro o ho
      rw [heq] at ho
      rw [heq, ← hv]
      exact hstrict o ho
  · have hfst : (argmaxLoop (offsetScore s period.toNat) period.toNat).1 = 0 := by rw [hbot]
    have hsnd : (argmaxLoop (offsetScore s period.toNat) period.toNat).2 = ⊥ := by rw [hbot]
    have hf0 : offsetScore s period.toNat 0 = ⊥ := by
      have := hmax 0 (by omega)
      rw [hsnd] at this
      exact le_bot_iff.mp this
    refine ⟨by rw [heq, hfst]; omega, ?_, ?_⟩
    · intro o ho
      rw [heq, hfst, hf0]
      have := hmax o ho
      rwa [hsnd] at this
    · intro o ho
      rw [heq, hfst] at ho
      omega

/-- C6 witness: the maximizer bound applied at the spike signal with period
10, discharging the `2 ≤ period` hypothesis. -/
theorem c6_witness : estimateGridOffset spikeSignal 10 < (10 : ℤ).toNat :=
  ((c6_estimateGridOffset spikeSignal 10).1.2 (by norm_num)).1

/-! ## C8: a flat image throws the insufficient-signal error -/

lemma getD_replicate_zero (m : ℕ) : ∀ i, (List.replicate m (0 : ℚ)).getD i 0 = 0 := by
  intro i
  rw [List.getD_eq_getElem?_getD, List.getElem?_replicate]
  split <;> rfl

lemma sobel_const_zero (hyp : ℚ → ℚ → ℚ) (hy0 : hyp 0 0 = 0) (gray : ℕ → ℚ) (c : ℚ)
    (hg : ∀ k, gray k = c) (w h idx : ℕ) : computeSobelMagnitude hyp gray w h idx = 0 := by
  unfold computeSobelMagnitude
  simp only [hg]
  convert hy0 using 2 <;> ring

lemma foldl_max_zero (l : List ℚ) (hl : ∀ x ∈ l, x = 0) :
    ∀ a, a = 0 → l.foldl max a = 0 := by
  induction l with
  | nil => intro a ha; exact ha
  | cons x xs ih =>
    intro a ha
    rw [List.foldl_cons]
    refine ih (fun y hy => hl y (List.mem_cons_of_mem x hy)) _ ?_
    rw [ha, hl x (List.mem_cons_self x xs)]
    exact max_self 0

lemma foldl_min_zero (l : List ℚ) (hl : ∀ x ∈ l, x = 0) :
    ∀ a, a = 0 → l.foldl min a = 0 := by
  induction l with
  | nil => intro a ha; exact ha
  | cons x xs ih =>
    intro a ha
    rw [List.foldl_cons]
    refine ih (fun y hy => hl y (List.mem_cons_of_mem x hy)) _ ?_
    rw [ha, hl x (List.mem_cons_self x xs)]
    exact min_self 0

lemma hpLoop_zero (s : List ℚ) (hs : ∀ i, s.getD i 0 = 0) (n halfW : ℕ) :
    ∀ fuel i, hpLoop s n halfW fuel i 0 = List.replicate fuel 0 := by
  intro fuel
  induction fuel with
  | zero => intro i; rfl
  | succ k ih =>
    intro i
    rw [hpLoop, List.replicate_succ]
    simp only [hs, add_zero, zero_add, sub_zero, zero_div, ite_self]
    rw [ih]

lemma highPassCore_zero (m w : ℕ) :
    highPassCore (List.replicate m (0 : ℚ)) w = List.replicate m 0 := by
  simp only [highPassCore, List.length_replicate, List.take_replicate, List.sum_replicate,
    smul_zero]
  rw [hpLoop_zero _ (getD_replicate_zero m), List.map_replicate]
  norm_num

lemma normalizeSignal_replicate_zero (m : ℕ) :
    normalizeSignal (List.replicate m (0 : ℚ)) = List.replicate m 0 := by
  cases m with
  | zero => rfl
  | succ k =>
    rw [List.replicate_succ, normalizeSignal]
    have hmem : ∀ x ∈ (0 : ℚ) :: List.replicate k 0, x = 0 := by
      intro x hx
      rcases List.mem_cons.mp hx with h | h
      · exact h
      · exact (List.mem_replicate.mp h).2
    rw [foldl_max_zero _ hmem 0 rfl, foldl_min_zero _ hmem 0 rfl]
    norm_num

lemma autocorr_replicate_zero_val (m minLag maxLag : ℕ) :
    ∀ e ∈ computeAutocorrelation (List.replicate m (0 : ℚ)) minLag maxLag, e.val = 0 := by
  intro e he
  unfold computeAutocorrelation at he
  simp only [List.mem_map, List.mem_range] at he
  obtain ⟨k, _, hfk⟩ := he
  rw [← hfk]
  simp [getD_replicate_zero, List.map_replicate, List.map_const', List.sum_replicate]

lemma getD_mem_of_lt (ac : List Entry) (x : ℕ) (hx : x < ac.length) :
    ac.getD x dEntry ∈ ac := by
  rw [List.getD_eq_getElem?_getD, List.getElem?_eq_getElem hx]
  exact List.getElem_mem hx

lemma peaksOf_of_allzero (ac : List Entry) (hv : ∀ e ∈ ac, e.val = 0) : peaksOf ac = [] := by
  rw [peaksOf, List.filterMap_eq_nil_iff]
  intro i hi
  rw [List.mem_range] at hi
  rw [if_neg]
  rintro ⟨h1, h2, h3, -⟩
  have e1 : (ac.getD (i - 1) dEntry).val = 0 := hv _ (getD_mem_of_lt ac (i - 1) (by omega))
  have e2 : (ac.getD i dEntry).val = 0 := hv _ (getD_mem_of_lt ac i (by omega))
  rw [e1, e2] at h3
  exact lt_irrefl 0 h3

lemma findBest_of_allzero (ac : List Entry) (hv : ∀ e ∈ ac, e.val = 0) :
    findBestPeriodFromAutocorrelation ac = none :=
  (findBest_eq_none_iff ac).mpr (peaksOf_of_allzero ac hv)

lemma detectPeriod_replicate_zero (w h : ℕ) :
    detectPeriodFromProjections (List.replicate w (0 : ℚ)) (List.replicate h (0 : ℚ)) w h
      = none := by
  simp only [detectPeriodFromProjections]
  rw [findBest_of_allzero _ (autocorr_replicate_zero_val w _ _),
    findBest_of_allzero _ (autocorr_replicate_zero_val h _ _)]
  rfl

lemma processProjection_replicate_zero (m d : ℕ) :
    processProjection (List.replicate m (0 : ℚ)) d = List.replicate m 0 := by
  simp only [processProjection, applyHighPassFilter]
  rw [highPassCore_zero, normalizeSignal_replicate_zero]

/-- C8: on an image whose pixels all have the same color, the Sobel magnitude
is identically zero, the conditioned projections are identically zero, the
autocorrelation values are all zero (the zero-variance denominator is guarded
to 1), no peak exists on either axis, the combined period is `null`, and —
absent at least two manual points — `detectGridFromImage` throws the
insufficient-periodic-signal error. -/
theorem c8_flat_image_insufficient_signal (hyp : ℚ → ℚ → ℚ) (hy0 : hyp 0 0 = 0)
    (w h : ℕ) (r g b : ℚ) (pix : ℕ → ℚ)
    (hp : ∀ k, pix (4 * k) = r ∧ pix (4 * k + 1) = g ∧ pix (4 * k + 2) = b)
    (scale : ℚ) (mp : Option (List (ℚ × ℚ)))
    (hmp : ∀ pts, mp = some pts → pts.length < 2) :
    detectGridFromImageService hyp w h pix scale mp = .err errMsg := by
  have hmag : ∀ idx, computeSobelMagnitude hyp
      (fun k => 299 / 1000 * pix (4 * k) + 587 / 1000 * pix (4 * k + 1)
        + 114 / 1000 * pix (4 * k + 2)) w h idx = 0 := by
    intro idx
    refine sobel_const_zero hyp hy0 _
      (299 / 1000 * r + 587 / 1000 * g + 114 / 1000 * b) ?_ w h idx
    intro k
    rw [(hp k).1, (hp k).2.1, (hp k).2.2]
  simp only [detectGridFromImageService, hmag, List.map_const', List.length_range,
    List.sum_replicate, smul_zero]
  rw [processProjection_replicate_zero, processProjection_replicate_zero,
    detectPeriod_replicate_zero]
  show manualFallback mp = DetectOutcome.err errMsg
  cases hmp2 : mp with
  | none => rfl
  | some pts =>
    have hlt := hmp pts hmp2
    simp only [manualFallback]
    rw [if_neg (by omega)]

/-- C8 witness: a black 1×1 image with no manual points, discharging every
hypothesis at concrete values. -/
theorem c8_witness :
    detectGridFromImageService (fun _ _ => 0) 1 1 (fun _ => 0) 1 none = .err errMsg :=
  c8_flat_image_insufficient_signal (fun _ _ => 0) rfl 1 1 0 0 0 (fun _ => 0)
    (fun _ => ⟨rfl, rfl, rfl⟩) 1 none (fun _ hpts => nomatch hpts)

/-! ## C3: fields of successful results -/

lemma manualFallback_ok (mp : Option (List (ℚ × ℚ))) (r : GridResult)
    (h : manualFallback mp = .ok r) :
    ∃ pts, mp = some pts ∧ 2 ≤ pts.length ∧ r = detectFromManualPoints pts := by
  cases mp with
  | none => exact absurd h (by simp [manualFallback])
  | some pts =>
    simp only [manualFallback] at h
    by_cases h2 : 2 ≤ pts.length
    · rw [if_pos h2] at h
      exact ⟨pts, rfl, h2, (DetectOutcome.ok.inj h).symm⟩
    · rw [if_neg h2] at h
      exact absurd h (by simp)

lemma detectFromManualPoints_pos (pts : List (ℚ × ℚ)) (hpos : 0 < manualTileSize pts) :
    0 < (detectFromManualPoints pts).gridSize
    ∧ (detectFromManualPoints pts).xOffset.isSome
    ∧ (detectFromManualPoints pts).yOffset.isSome := by
  have hne : ((manualTileSize pts : ℤ) : ℚ) ≠ 0 := by
    exact_mod_cast ne_of_gt hpos
  refine ⟨?_, ?_, ?_⟩
  · show (0 : ℚ) < ((manualTileSize pts : ℤ) : ℚ)
    exact_mod_cast hpos
  · show (jsMod (listMinQ (pts.map Prod.fst)) ((manualTileSize pts : ℤ) : ℚ)).isSome
    rw [jsMod, if_neg hne]
    rfl
  · show (jsMod (listMinQ (pts.map Prod.snd)) ((manualTileSize pts : ℤ) : ℚ)).isSome
    rw [jsMod, if_neg hne]
    rfl

lemma manualFallback_fields (mp : Option (List (ℚ × ℚ))) (r : GridResult)
    (hmp : ∀ pts, mp = some pts → 2 ≤ pts.length → 0 < manualTileSize pts)
    (hr : manualFallback mp = .ok r) :
    0 < r.gridSize ∧ r.xOffset.isSome ∧ r.yOffset.isSome := by
  obtain ⟨pts, hpts, hlen, hrr⟩ := manualFallback_ok mp r hr
  rw [hrr]
  exact detectFromManualPoints_pos pts (hmp pts hpts hlen)

/-- C3 amended: every result returned (rather than thrown) by
`detectGridFromImage` has `gridSize > 0` and well-defined finite offsets,
provided the scale factor is positive (it always is: `min(1, 1600/maxDim)`)
and any manual points supplied have a positive rounded mean spacing; two
coincident manual points violate the latter and produce `gridSize = 0` with
`NaN` offsets (see the counterexample). -/
theorem c3_success_fields (hyp : ℚ → ℚ → ℚ) (w h : ℕ) (pix : ℕ → ℚ) (scale : ℚ)
    (mp : Option (List (ℚ × ℚ))) (r : GridResult)
    (hscale : 0 < scale)
    (hmp : ∀ pts, mp = some pts → 2 ≤ pts.length → 0 < manualTileSize pts)
    (hr : detectGridFromImageService hyp w h pix scale mp = .ok r) :
    0 < r.gridSize ∧ r.xOffset.isSome ∧ r.yOffset.isSome := by
  simp only [detectGridFromImageService] at hr
  cases hper : detectPeriodFromProjections
      (processProjection ((List.range w).map fun x =>
        ((List.range h).map fun y => computeSobelMagnitude hyp
          (fun k => 299 / 1000 * pix (4 * k) + 587 / 1000 * pix (4 * k + 1)
            + 114 / 1000 * pix (4 * k + 2)) w h (y * w + x)).sum) w)
      (processProjection ((List.range h).map fun y =>
        ((List.range w).map fun x => computeSobelMagnitude hyp
          (fun k => 299 / 1000 * pix (4 * k) + 587 / 1000 * pix (4 * k + 1)
            + 114 / 1000 * pix (4 * k + 2)) w h (y * w + x)).sum) h) w h with
  | none =>
    rw [hper] at hr
    exact manualFallback_fields mp r hmp hr
  | some p =>
    rw [hper] at hr
    dsimp only at hr
    split_ifs at hr with hcond
    · have hrr : r = buildDetectionResult p _ _ scale := (DetectOutcome.ok.inj hr).symm
      obtain ⟨-, hp6⟩ := hcond
      have hp0 : (0 : ℚ) < p := lt_of_lt_of_le (by norm_num) hp6
      have hs0 : (0 : ℚ) < 1 / scale := by positivity
      rw [hrr]
      refine ⟨?_, rfl, rfl⟩
      show 0 < p * (1 / scale)
      exact mul_pos hp0 hs0
    · exact manualFallback_fields mp r hmp hr

set_option maxRecDepth 40000 in
unseal Rat.add Rat.sub Rat.mul Rat.inv in
/-- C3 witness: a featureless 1×1 image with manual points (10,10) and
(110,110) returns `gridSize = 100` with offsets 10, discharging every
hypothesis at concrete values. -/
theorem c3_witness :
    0 < (GridResult.mk 100 (some 10) (some 10)).gridSize
    ∧ (GridResult.mk 100 (some 10) (some 10)).xOffset.isSome
    ∧ (GridResult.mk 100 (some 10) (some 10)).yOffset.isSome :=
  c3_success_fields (fun _ _ => 0) 1 1 (fun _ => 0) 1 (some [(10, 10), (110, 110)])
    ⟨100, some 10, some 10⟩ (by norm_num)
    (fun pts hpts _ => by
      injection hpts with hp2
      subst hp2
      decide)
    (by decide)

/-! ## C2: the drop-handler implementation equals the factored one -/

lemma highPass1D_eq : highPass1D = applyHighPassFilter := rfl

lemma autocorr1D_eq : autocorr1D = computeAutocorrelation := rfl

lemma dropNormalize_eq : dropNormalize = normalizeSignal := by
  funext s
  cases s <;> rfl

lemma sobelMagnitude_eq : sobelMagnitude = computeSobelMagnitude := rfl

lemma pickPeriod_eq : pickPeriodFromAutocorr = findBestPeriodFromAutocorrelation := by
  funext ac
  simp only [pickPeriodFromAutocorr, findBestPeriodFromAutocorrelation]
  by_cases hac : ac.isEmpty
  · rw [if_pos hac, if_pos hac]
  · rw [if_neg hac, if_neg hac]
    by_cases hpk : (peaksOf ac).isEmpty
    · rw [List.isEmpty_iff.mp hpk]
      rfl
    · have hsne : ¬ (sortValDesc (peaksOf ac)).isEmpty = true := by
        intro hs
        have hlen := congrArg List.length (List.isEmpty_iff.mp hs)
        rw [sortValDesc, List.length_insertionSort, List.length_nil] at hlen
        exact hpk (List.isEmpty_iff.mpr (List.length_eq_zero.mp hlen))
      rw [if_neg hsne, if_neg hpk]

lemma offsetScoreDrop_eq : offsetScoreDrop = offsetScore := by
  funext s P off
  have hmap : ∀ i, (s.map fun v => v * normalizerOf s).getD i 0 = s.getD i 0 * normalizerOf s := by
    intro i
    rw [List.getD_eq_getElem?_getD, List.getD_eq_getElem?_getD, List.getElem?_map]
    cases s[i]? with
    | none => simp
    | some v => simp
  simp only [offsetScoreDrop, offsetScore, hmap]

lemma estimateOffset_eq : estimateOffsetFromProjection = estimateGridOffset := by
  funext s period
  simp only [estimateOffsetFromProjection, estimateGridOffset, offsetScoreDrop_eq]

/-- C2: the grid-detection pipeline embedded in the drop handler and the
factored `GridDetectionService` pipeline produce the same outcome on every
input — the same `gridSize`, `xOffset`, `yOffset` on success and failure in
exactly the same cases. -/
theorem c2_drop_equals_service (hyp : ℚ → ℚ → ℚ) (w h : ℕ) (pix : ℕ → ℚ) (scale : ℚ)
    (mp : Option (List (ℚ × ℚ))) :
    detectGridFromImageDrop hyp w h pix scale mp
      = detectGridFromImageService hyp w h pix scale mp := by
  simp only [detectGridFromImageDrop, detectGridFromImageService, highPass1D_eq,
    autocorr1D_eq, dropNormalize_eq, sobelMagnitude_eq, pickPeriod_eq, estimateOffset_eq,
    processProjection, detectPeriodFromProjections, buildDetectionResult, manualFallback,
    combinePeriodCandidates]

end QuickImport
